import Mathlib

/-!
Verification of the async-ride-boost repository's orchestration core:
percentile aggregation, sequential/parallel execution of database
operations, benchmark history, comparison generation, request
validation and fare estimation, shallowly embedded from the
JavaScript sources (`src/scripts/benchmark.js`,
`src/backend/src/routes/rides.js`, and the benchmark router).

Durations are modelled in milliseconds as naturals or rationals;
JavaScript numbers are modelled as rationals, `Math.round` as
`⌊x + 1/2⌋` (half rounds toward +∞, as in JS), `Math.ceil` as
`Int.ceil`, `Math.floor` as `Int.floor`.
-/

namespace RideBoost

/-- JavaScript `Math.round(x)` on non-negative halves:
round half toward positive infinity. -/
def jsRound (x : ℚ) : ℤ := ⌊x + 1 / 2⌋

/-- Rounding to two decimal places: `Math.round(x * 100) / 100`. -/
def round2 (x : ℚ) : ℚ := (jsRound (x * 100) : ℚ) / 100

/-! ### Percentiles (benchmark.js `percentile`, benchmark router `/run`) -/

/-- Ascending numeric sort, embedding `arr.slice().sort((a, b) => a - b)`. -/
def sortAsc (l : List ℚ) : List ℚ :=
  l.mergeSort (fun a b => decide (a ≤ b))

/-- Embeds `percentile(arr, p)` from `src/scripts/benchmark.js` (lines
134-138): sort ascending, then index `Math.ceil(sorted.length * p) - 1`. -/
def percentile (arr : List ℚ) (p : ℚ) : ℚ :=
  (sortAsc arr).getD (⌈(arr.length : ℚ) * p⌉ - 1).toNat 0

/-- Embeds the p50/p95/p99 computation of the benchmark `router.post('/run')`
handler: `sortedTimes[Math.floor(sortedTimes.length * p)]`. -/
def benchmarkRunPercentile (arr : List ℚ) (p : ℚ) : ℚ :=
  (sortAsc arr).getD (⌊(arr.length : ℚ) * p⌋).toNat 0

/-- The spec's percentile formula, written independently of the source:
the element of the ascending-sorted array (here via insertion sort) at
0-indexed position `⌈n × p⌉ − 1`. -/
def specPercentile (arr : List ℚ) (p : ℚ) : ℚ :=
  (arr.insertionSort (· ≤ ·)).getD (⌈(arr.length : ℚ) * p⌉ - 1).toNat 0

/-! ### Operations and execution modes

An operation models one `db.execute(...)` (or one `simulateDbQuery`)
call: it has a name, a settle time in milliseconds, and a flag saying
whether the underlying promise fulfills (`ok = true`) or rejects. -/

structure Op where
  name : String
  duration : ℕ
  ok : Bool
deriving DecidableEq

def sumDur (ops : List Op) : ℕ := (ops.map Op.duration).sum

def maxDur (ops : List Op) : ℕ := (ops.map Op.duration).foldr max 0

/-- The earliest-settling element of a list, ties broken toward the
front of the list. -/
def pickEarliestMin : List Op → Option Op
  | [] => none
  | op :: rest =>
    match pickEarliestMin rest with
    | none => some op
    | some b => if b.duration < op.duration then some b else some op

/-- The rejection that `Promise.all` would adopt: the earliest-settling
operation whose promise rejects (ties broken by submission order). -/
def firstRejection (ops : List Op) : Option Op :=
  pickEarliestMin (ops.filter (fun op => !op.ok))

/-- Embeds `await Promise.all([...])` over the launched operations, as in
`router.post('/book-parallel')` (rides.js lines 247-279) and
`simulateParallelOperations`: if every promise fulfills, the combined
promise fulfills when the last one settles, carrying every result; if any
rejects, the combined promise rejects as soon as the first rejection
settles, carrying only that reason — sibling outcomes are not recorded. -/
def promiseAll (ops : List Op) : ℕ × Except String (List String) :=
  match firstRejection ops with
  | none => (maxDur ops, .ok (ops.map Op.name))
  | some bad => (bad.duration, .error bad.name)

/-- Embeds `await Promise.allSettled([...])` as used by the benchmark
`/run` handler across requests: settles only when every promise has
settled, recording every outcome. -/
def promiseAllSettled (ops : List Op) : ℕ × List (String × Bool) :=
  (maxDur ops, ops.map (fun op => (op.name, op.ok)))

/-- One per-operation record of a sequential run (model-level
instrumentation of the await chain). -/
structure PerOp where
  name : String
  startOffset : ℕ
  duration : ℕ
  ok : Bool
deriving DecidableEq

structure SeqRun where
  clock : ℕ
  records : List PerOp
  allOk : Bool
deriving DecidableEq

/-- Embeds the sequential await chain of `router.post('/book-sequential')`
(rides.js lines 160-203) and `simulateSequentialOperations`: each
operation is awaited before the next starts; a rejection throws, so the
remaining operations are never invoked. -/
def seqExec (t : ℕ) : List Op → SeqRun
  | [] => ⟨t, [], true⟩
  | op :: rest =>
    if op.ok then
      let r := seqExec (t + op.duration) rest
      ⟨r.clock, ⟨op.name, t, op.duration, true⟩ :: r.records, r.allOk⟩
    else
      ⟨t + op.duration, [⟨op.name, t, op.duration, false⟩], false⟩

/-- The records an all-successful await chain produces when started at
clock `t`: submission order, each start offset the previous one's start
plus its duration. -/
def mkRecords (t : ℕ) : List Op → List PerOp
  | [] => []
  | op :: rest => ⟨op.name, t, op.duration, op.ok⟩ :: mkRecords (t + op.duration) rest

/-- The response of `router.post('/book-sequential')`: on success, totals
only (`totalTime`, `dbTime`, `operations: 5`,
`avgTimePerOperation: Math.round(dbTime / 5)`); on a thrown operation the
catch block answers 500 with a fixed message carrying no per-operation
data. The model has zero overhead outside the awaited operations, so
`totalTime = dbTime = ` the final clock. -/
inductive BookSeqResponse where
  | success (totalTime dbTime : ℕ) (operations : ℕ) (avgTimePerOperation : ℤ)
  | failure (message : String)
deriving DecidableEq

def bookSequential (ops : List Op) : BookSeqResponse :=
  let r := seqExec 0 ops
  if r.allOk then
    .success r.clock r.clock 5 (jsRound ((r.clock : ℚ) / 5))
  else
    .failure "Failed to book ride (sequential)"

/-- Embeds `simulateDbQuery(baseDelay)` (benchmark router): resolves after
`baseDelay` plus a jitter in `[0, 30)`; never rejects. -/
def simulateDbQuery (baseDelay jitter : ℕ) : Op :=
  ⟨"dbQuery", baseDelay + jitter, true⟩

/-- The five simulated booking operations (wallet check, trip history,
pricing, logging, payment validation) with their base delays
50/80/60/40/70 ms and per-query jitter. -/
def bookingOps (jitter : Fin 5 → ℕ) : List Op :=
  [simulateDbQuery 50 (jitter 0), simulateDbQuery 80 (jitter 1),
   simulateDbQuery 60 (jitter 2), simulateDbQuery 40 (jitter 3),
   simulateDbQuery 70 (jitter 4)]

/-- Embeds `simulateSequentialOperations`: await the five queries one at a time. -/
def simulateSequentialOperations (jitter : Fin 5 → ℕ) : SeqRun :=
  seqExec 0 (bookingOps jitter)

/-- Embeds `simulateParallelOperations`: `Promise.all` over the five queries. -/
def simulateParallelOperations (jitter : Fin 5 → ℕ) :
    ℕ × Except String (List String) :=
  promiseAll (bookingOps jitter)

/-- The `speedImprovement` figure of `router.post('/book-parallel')`
(rides.js line 302): `Math.round(((300 - totalTime) / 300) * 100)`,
computed from the parallel run's own `totalTime` and the constant 300. -/
def speedImprovementPercent (totalTime : ℚ) : ℤ :=
  jsRound ((300 - totalTime) / 300 * 100)

/-- The improvement formula of the spec (§4.3) and of
`generateComparison`: two measured averages. -/
def measuredImprovementPercent (seqAvg parAvg : ℚ) : ℚ :=
  (seqAvg - parAvg) / seqAvg * 100

/-! ### Benchmark history and comparison (benchmark router) -/

/-- One stored result of the benchmark `/run` handler. -/
structure BenchResult where
  endpoint : String
  totalRequests : ℕ
  successfulRequests : ℕ
  failedRequests : ℕ
  totalTime : ℕ
  averageTime : ℚ
  p50 : ℚ
  p95 : ℚ
  p99 : ℚ
deriving DecidableEq

/-- Embeds lines 208-214 of the benchmark router: `benchmarkResults.push(
results)` followed by `if (benchmarkResults.length > 10)
benchmarkResults = benchmarkResults.slice(-10)`. -/
def pushBenchmarkResult (hist : List BenchResult) (r : BenchResult) :
    List BenchResult :=
  let h := hist ++ [r]
  if 10 < h.length then h.drop (h.length - 10) else h

/-- Success rate: `(successfulRequests / totalRequests) * 100`. -/
def successRatePct (r : BenchResult) : ℚ :=
  (r.successfulRequests : ℚ) / (r.totalRequests : ℚ) * 100

structure ComparisonReport where
  seqAverageTime : ℚ
  seqP95 : ℚ
  seqSuccessRate : ℚ
  parAverageTime : ℚ
  parP95 : ℚ
  parSuccessRate : ℚ
  improvementPercentage : ℚ
  timeSaved : ℚ
deriving DecidableEq

/-- Embeds `generateComparison()` (benchmark router lines 296-325): filter
the history by endpoint label, return `null` when either side is empty,
otherwise compare the latest result of each side. The source formats
`improvement.toFixed(1)`; the model keeps the unformatted number. -/
def generateComparison (hist : List BenchResult) : Option ComparisonReport :=
  let seqs := hist.filter (fun r => r.endpoint == "sequential")
  let pars := hist.filter (fun r => r.endpoint == "parallel")
  match seqs.getLast?, pars.getLast? with
  | some s, some p =>
    let improvement := measuredImprovementPercent s.averageTime p.averageTime
    some ⟨s.averageTime, s.p95, successRatePct s,
          p.averageTime, p.p95, successRatePct p,
          improvement, improvement / 100 * s.averageTime⟩
  | _, _ => none

/-! ### Request validation (rides.js `validateRideRequestEnhanced`) -/

structure GeoPoint where
  lat : Option ℚ
  lng : Option ℚ
deriving DecidableEq

structure RideRequestBody where
  pickup : Option GeoPoint
  dropoff : Option GeoPoint
  ride_type : Option String
deriving DecidableEq

/-- JavaScript numeric falsiness as it applies to an optional coordinate:
absent or zero (the reachable falsy numbers of the model). -/
def numFalsy : Option ℚ → Bool
  | none => true
  | some x => x == 0

/-- Embeds `validateRideRequestEnhanced` (rides.js lines 8-24): returns
the 400 message the middleware would send, or `none` when it calls
`next()`. -/
def validateRideRequestEnhanced (b : RideRequestBody) : Option String :=
  match b.pickup, b.dropoff with
  | none, _ => some "Pickup and dropoff locations are required"
  | _, none => some "Pickup and dropoff locations are required"
  | some pu, some dr =>
    if numFalsy pu.lat || numFalsy pu.lng || numFalsy dr.lat || numFalsy dr.lng then
      some "Invalid location coordinates"
    else
      match b.ride_type with
      | none => some "Valid ride type is required"
      | some rt =>
        if rt ∈ ["standard", "premium", "shared"] then none
        else some "Valid ride type is required"

structure HttpResponse where
  status : ℕ
  message : String
deriving DecidableEq

/-- The middleware chain of the estimate/book/book-sequential/book-parallel
routes: `router.post(path, auth, validateRideRequestEnhanced, handler)`.
On a validation failure the middleware responds 400 and the handler — and
hence any database operation on the store `σ` — never runs. -/
def routeWithValidation {σ : Type}
    (handler : RideRequestBody → σ → HttpResponse × σ)
    (b : RideRequestBody) (st : σ) : HttpResponse × σ :=
  match validateRideRequestEnhanced b with
  | some msg => (⟨400, msg⟩, st)
  | none => handler b st

/-! ### Fare estimation (rides.js `router.post('/estimate')`) -/

structure Estimate where
  distance : ℚ
  duration : ℤ
  base_fare : ℚ
  distance_fare : ℚ
  surge_multiplier : ℚ
  total_fare : ℚ
deriving DecidableEq

def baseFares : List (String × ℚ) :=
  [("standard", 25), ("premium", 40), ("shared", 18)]

def perKmRates : List (String × ℚ) :=
  [("standard", 12), ("premium", 18), ("shared", 8)]

/-- Object lookup `table[key] || fallback` with non-falsy values. -/
def lookupOr (tbl : List (String × ℚ)) (k : String) (dflt : ℚ) : ℚ :=
  match tbl.find? (fun kv => kv.1 == k) with
  | some kv => kv.2
  | none => dflt

/-- Embeds the surge computation of the estimate handler (rides.js lines
58-75): 1.5 in peak hours, 1.3 late night, else 1.0; on weekends at
least 1.2. `hour` is `new Date().getHours()` (0..23), `day` is
`new Date().getDay()` (0 = Sunday, 6 = Saturday). -/
def surgeMultiplier (hour day : ℕ) : ℚ :=
  let s : ℚ :=
    if (7 ≤ hour ∧ hour ≤ 10) ∨ (17 ≤ hour ∧ hour ≤ 21) then 3 / 2
    else if 23 ≤ hour ∨ hour ≤ 5 then 13 / 10
    else 1
  if day = 0 ∨ day = 6 then max s (6 / 5) else s

/-- Embeds the estimate construction of `router.post('/estimate')`
(rides.js lines 42-90), with the Haversine `distance` (in km) taken as
input. -/
def estimateFare (distance : ℚ) (ride_type : String) (hour day : ℕ) :
    Estimate :=
  let baseFare := lookupOr baseFares ride_type 25
  let kmRate := lookupOr perKmRates ride_type 12
  let distanceFare := distance * kmRate
  let surge := surgeMultiplier hour day
  let totalFare := (baseFare + distanceFare) * surge
  let duration : ℤ := ⌈distance / 25 * 60⌉
  { distance := round2 distance
    duration := max duration 5
    base_fare := round2 baseFare
    distance_fare := round2 distanceFare
    surge_multiplier := surge
    total_fare := round2 totalFare }

/-! ### Helper lemmas -/

theorem sortAsc_eq_insertionSort (l : List ℚ) :
    sortAsc l = l.insertionSort (· ≤ ·) := by
  simpa [sortAsc] using
    List.mergeSort_eq_insertionSort (r := (· ≤ · : ℚ → ℚ → Prop)) l

theorem pickEarliestMin_eq_none {l : List Op} :
    pickEarliestMin l = none ↔ l = [] := by
  cases l with
  | nil => simp [pickEarliestMin]
  | cons op rest =>
    simp only [pickEarliestMin]
    cases pickEarliestMin rest with
    | none => simp
    | some b =>
      constructor
      · intro h
        by_cases hb : b.duration < op.duration <;> simp [hb] at h
      · intro h
        exact absurd h (List.cons_ne_nil _ _)

theorem pickEarliestMin_mem {l : List Op} {b : Op}
    (h : pickEarliestMin l = some b) : b ∈ l := by
  induction l generalizing b with
  | nil => simp [pickEarliestMin] at h
  | cons op rest ih =>
    simp only [pickEarliestMin] at h
    cases hr : pickEarliestMin rest with
    | none => rw [hr] at h; simp at h; simp [h]
    | some c =>
      rw [hr] at h
      by_cases hc : c.duration < op.duration
      · simp only [hc, if_true, Option.some.injEq] at h
        exact List.mem_cons_of_mem _ (h ▸ ih hr)
      · simp only [hc, if_false, Option.some.injEq] at h
        simp [← h]

theorem pickEarliestMin_min {l : List Op} {b : Op}
    (h : pickEarliestMin l = some b) :
    ∀ x ∈ l, b.duration ≤ x.duration := by
  induction l generalizing b with
  | nil => simp [pickEarliestMin] at h
  | cons op rest ih =>
    simp only [pickEarliestMin] at h
    cases hr : pickEarliestMin rest with
    | none =>
      rw [hr] at h
      simp only [Option.some.injEq] at h
      intro x hx
      rcases List.mem_cons.mp hx with rfl | hx'
      · exact le_of_eq (by rw [h])
      · exact absurd (pickEarliestMin_eq_none.mp hr ▸ hx') (List.not_mem_nil x)
    | some c =>
      rw [hr] at h
      intro x hx
      by_cases hc : c.duration < op.duration
      · simp only [hc, if_true, Option.some.injEq] at h
        subst h
        rcases List.mem_cons.mp hx with rfl | hx'
        · exact le_of_lt hc
        · exact ih hr x hx'
      · simp only [hc, if_false, Option.some.injEq] at h
        subst h
        rcases List.mem_cons.mp hx with rfl | hx'
        · exact le_refl _
        · exact le_trans (le_of_not_lt hc) (ih hr x hx')

theorem firstRejection_eq_none {ops : List Op}
    (h : ops.all Op.ok = true) : firstRejection ops = none := by
  rw [firstRejection, pickEarliestMin_eq_none, List.filter_eq_nil_iff]
  intro op hop
  simp [List.all_eq_true.mp h op hop]

theorem firstRejection_of_failure {ops : List Op}
    (h : ∃ op ∈ ops, op.ok = false) :
    ∃ bad, firstRejection ops = some bad ∧ bad ∈ ops ∧ bad.ok = false ∧
      ∀ op ∈ ops, op.ok = false → bad.duration ≤ op.duration := by
  obtain ⟨w, hw, hwok⟩ := h
  have hfil : ops.filter (fun op => !op.ok) ≠ [] := by
    intro hnil
    have := List.filter_eq_nil_iff.mp hnil w hw
    simp [hwok] at this
  cases hpick : pickEarliestMin (ops.filter (fun op => !op.ok)) with
  | none => exact absurd (pickEarliestMin_eq_none.mp hpick) hfil
  | some bad =>
    have hmem := pickEarliestMin_mem hpick
    have hbadfil := List.mem_filter.mp hmem
    refine ⟨bad, hpick, hbadfil.1, by simpa using hbadfil.2, ?_⟩
    intro op hop hopok
    exact pickEarliestMin_min hpick op
      (List.mem_filter.mpr ⟨hop, by simp [hopok]⟩)

theorem maxDur_le_sumDur (ops : List Op) : maxDur ops ≤ sumDur ops := by
  induction ops with
  | nil => simp [maxDur, sumDur]
  | cons op rest ih =>
    simp only [maxDur, sumDur, List.map_cons, List.foldr_cons, List.sum_cons]
    exact max_le (Nat.le_add_right _ _) (le_trans ih (Nat.le_add_left _ _))

theorem sumDur_pos {ops : List Op} (hne : ops ≠ [])
    (hpos : ∀ op ∈ ops, 0 < op.duration) : 0 < sumDur ops := by
  cases ops with
  | nil => exact absurd rfl hne
  | cons op rest =>
    have := hpos op (List.mem_cons_self _ _)
    simp only [sumDur, List.map_cons, List.sum_cons]
    omega

theorem maxDur_lt_sumDur {ops : List Op} (hlen : 1 < ops.length)
    (hpos : ∀ op ∈ ops, 0 < op.duration) : maxDur ops < sumDur ops := by
  cases ops with
  | nil => simp at hlen
  | cons op rest =>
    have hrestne : rest ≠ [] := by
      intro h
      rw [h] at hlen
      simp at hlen
    have hrestpos : ∀ x ∈ rest, 0 < x.duration :=
      fun x hx => hpos x (List.mem_cons_of_mem _ hx)
    have hspos : 0 < sumDur rest := sumDur_pos hrestne hrestpos
    have hops : 0 < op.duration := hpos op (List.mem_cons_self _ _)
    have h1 : op.duration < op.duration + sumDur rest := by omega
    have h2 : maxDur rest < op.duration + sumDur rest :=
      lt_of_le_of_lt (maxDur_le_sumDur rest) (by omega)
    simp only [maxDur, sumDur, List.map_cons, List.foldr_cons, List.sum_cons]
    exact max_lt h1 h2

theorem seqExec_all_ok (t : ℕ) (ops : List Op) (h : ops.all Op.ok = true) :
    seqExec t ops = ⟨t + sumDur ops, mkRecords t ops, true⟩ := by
  induction ops generalizing t with
  | nil => simp [seqExec, sumDur, mkRecords]
  | cons op rest ih =>
    rw [List.all_cons, Bool.and_eq_true] at h
    have hrec := ih (t + op.duration) h.2
    simp only [seqExec, h.1, if_true, hrec, mkRecords, sumDur,
      List.map_cons, List.sum_cons, SeqRun.mk.injEq, Nat.add_assoc]

theorem mkRecords_map_name (t : ℕ) (ops : List Op) :
    (mkRecords t ops).map PerOp.name = ops.map Op.name := by
  induction ops generalizing t with
  | nil => simp [mkRecords]
  | cons op rest ih => simp [mkRecords, ih]

theorem mkRecords_length (t : ℕ) (ops : List Op) :
    (mkRecords t ops).length = ops.length := by
  induction ops generalizing t with
  | nil => simp [mkRecords]
  | cons op rest ih => simp [mkRecords, ih]

theorem mkRecords_head_start (t : ℕ) {ops : List Op} (h : ops ≠ []) :
    ((mkRecords t ops).getD 0 ⟨"", 0, 0, true⟩).startOffset = t := by
  cases ops with
  | nil => exact absurd rfl h
  | cons op rest => simp [mkRecords]

theorem mkRecords_start_step (t : ℕ) (ops : List Op) (i : ℕ)
    (h : i + 1 < (mkRecords t ops).length) :
    ((mkRecords t ops).getD (i + 1) ⟨"", 0, 0, true⟩).startOffset =
      ((mkRecords t ops).getD i ⟨"", 0, 0, true⟩).startOffset +
        ((mkRecords t ops).getD i ⟨"", 0, 0, true⟩).duration := by
  induction ops generalizing t i with
  | nil => simp [mkRecords] at h
  | cons op rest ih =>
    cases i with
    | zero =>
      have hrest : rest ≠ [] := by
        intro hr
        rw [hr] at h
        simp [mkRecords] at h
      simp only [mkRecords, List.getD_cons_succ, List.getD_cons_zero]
      rw [mkRecords_head_start (t + op.duration) hrest]
    | succ j =>
      simp only [mkRecords, List.getD_cons_succ]
      apply ih
      simpa [mkRecords] using Nat.lt_of_succ_lt_succ h

theorem seqExec_prefix_failure (t : ℕ) (pre : List Op) (bad : Op)
    (post : List Op) (hpre : pre.all Op.ok = true) (hbad : bad.ok = false) :
    seqExec t (pre ++ bad :: post) =
      ⟨t + sumDur pre + bad.duration,
       mkRecords t pre ++ [⟨bad.name, t + sumDur pre, bad.duration, false⟩],
       false⟩ := by
  induction pre generalizing t with
  | nil => simp [seqExec, hbad, sumDur, mkRecords]
  | cons op rest ih =>
    rw [List.all_cons, Bool.and_eq_true] at hpre
    have hrec := ih (t + op.duration) hpre.2
    simp only [List.cons_append, seqExec, hpre.1, if_true, List.append_eq]
    rw [hrec]
    simp only [mkRecords, sumDur, List.map_cons, List.sum_cons,
      SeqRun.mk.injEq, Nat.add_assoc, List.cons_append, hpre.1]

/-! ### Claim theorems -/

/-- C1 counterexample: at the two-element array `[10, 20]` and `p = 0.5`,
the benchmark `/run` handler's p50 is the element at `floor(n × p) = 1`,
namely 20, while the documented formula `sorted[ceil(n × p) − 1]` picks
index 0, namely 10 — so the claim that the run handler follows the
documented index formula is false. -/
theorem benchmarkRunPercentile_ne_specPercentile :
    benchmarkRunPercentile [10, 20] (1 / 2) = 20 ∧
    specPercentile [10, 20] (1 / 2) = 10 ∧
    benchmarkRunPercentile [10, 20] (1 / 2) ≠ specPercentile [10, 20] (1 / 2) := by
  have h1 : benchmarkRunPercentile [10, 20] (1 / 2) = 20 := by
    simp [benchmarkRunPercentile, sortAsc_eq_insertionSort, List.insertionSort,
      List.orderedInsert]
    norm_num
  have h2 : specPercentile [10, 20] (1 / 2) = 10 := by
    simp [specPercentile, List.insertionSort, List.orderedInsert]
    norm_num
  refine ⟨h1, h2, ?_⟩
  rw [h1, h2]
  norm_num

/-- C1 (amended): for every array and percentile level, the load driver's
`percentile` function equals the spec's formula `sorted[ceil(n × p) − 1]`
on the ascending-sorted array, while the benchmark `/run` handler's
p50/p95/p99 equal the element at 0-indexed position `floor(n × p)`
instead. -/
theorem percentile_index_formulas (arr : List ℚ) (p : ℚ) :
    percentile arr p = specPercentile arr p ∧
    benchmarkRunPercentile arr p =
      (arr.insertionSort (· ≤ ·)).getD (⌊(arr.length : ℚ) * p⌋).toNat 0 := by
  constructor
  · rw [percentile, specPercentile, sortAsc_eq_insertionSort]
  · rw [benchmarkRunPercentile, sortAsc_eq_insertionSort]

/-- C3: the `speedImprovement` figure of `book-parallel` is computed from
the hardcoded 300 ms baseline, not from a measured sequential result: a
parallel run of 150 ms is reported as 50% faster no matter what the
measured sequential average is, while the documented formula with a
measured sequential average of 600 ms gives 75%. -/
theorem speedImprovement_hardcoded_baseline :
    speedImprovementPercent 150 = 50 ∧
    measuredImprovementPercent 600 150 = 75 ∧
    (speedImprovementPercent 150 : ℚ) ≠ measuredImprovementPercent 600 150 := by
  refine ⟨?_, ?_, ?_⟩ <;>
    norm_num [speedImprovementPercent, measuredImprovementPercent, jsRound]

/-- C7: the rolling benchmark history is bounded at 10: a push produces
`min (n + 1) 10` entries, keeps exactly the most recent suffix of the
appended history, and at the bound evicts the oldest entry. -/
theorem pushBenchmarkResult_bounded (hist : List BenchResult) (r : BenchResult) :
    (pushBenchmarkResult hist r).length = min (hist.length + 1) 10 ∧
    pushBenchmarkResult hist r = (hist ++ [r]).drop (hist.length + 1 - 10) ∧
    (hist.length = 10 → pushBenchmarkResult hist r = hist.drop 1 ++ [r]) := by
  have hlen : (hist ++ [r]).length = hist.length + 1 := by simp
  have hmain : pushBenchmarkResult hist r = (hist ++ [r]).drop (hist.length + 1 - 10) := by
    rw [pushBenchmarkResult]
    simp only [hlen]
    by_cases h : 10 < hist.length + 1
    · rw [if_pos h]
    · rw [if_neg h]
      have h0 : hist.length + 1 - 10 = 0 := by omega
      rw [h0, List.drop_zero]
  refine ⟨?_, hmain, ?_⟩
  · rw [hmain, List.length_drop, hlen]
    omega
  · intro h10
    rw [hmain, h10, show (10 : ℕ) + 1 - 10 = 1 from rfl,
      List.drop_append_of_le_length (by omega : 1 ≤ hist.length)]

/-- C7 witness: pushing an 11th result onto a 10-element history keeps 10
entries and evicts the oldest. -/
theorem pushBenchmarkResult_bounded_witness :
    (pushBenchmarkResult
        (List.replicate 10 ⟨"sequential", 100, 100, 0, 5000, 50, 48, 60, 62⟩)
        ⟨"parallel", 100, 100, 0, 900, 9, 8, 12, 14⟩).length =
      min (10 + 1) 10 ∧
    pushBenchmarkResult
        (List.replicate 10 ⟨"sequential", 100, 100, 0, 5000, 50, 48, 60, 62⟩)
        ⟨"parallel", 100, 100, 0, 900, 9, 8, 12, 14⟩ =
      (List.replicate 10 ⟨"sequential", 100, 100, 0, 5000, 50, 48, 60, 62⟩).drop 1 ++
        [⟨"parallel", 100, 100, 0, 900, 9, 8, 12, 14⟩] := by
  have h := pushBenchmarkResult_bounded
    (List.replicate 10 ⟨"sequential", 100, 100, 0, 5000, 50, 48, 60, 62⟩)
    ⟨"parallel", 100, 100, 0, 900, 9, 8, 12, 14⟩
  exact ⟨by rw [h.1]; simp, h.2.2 (by simp)⟩

/-- C2 counterexample: with a 20 ms succeeding operation and a 10 ms
failing sibling, `Promise.all` settles at 10 ms — before the sibling — and
records only the rejection, so CONCURRENT execution does not wait for
every launched operation to settle, and sibling outcomes are lost. -/
theorem promiseAll_short_circuit_counterexample :
    (promiseAll [⟨"walletCheck", 20, true⟩, ⟨"tripHistory", 10, false⟩]).1 = 10 ∧
    maxDur [⟨"walletCheck", 20, true⟩, ⟨"tripHistory", 10, false⟩] = 20 ∧
    (promiseAll [⟨"walletCheck", 20, true⟩, ⟨"tripHistory", 10, false⟩]).2 =
      .error "tripHistory" ∧
    (10 : ℕ) ≠ 20 :=
  ⟨rfl, rfl, rfl, by decide⟩

/-- C2 (amended): `book-parallel` awaits `Promise.all`: when every
operation succeeds it settles when the last one does, with every result;
when any operation fails it settles as soon as the earliest failure does,
carrying only that failure — without waiting for sibling operations or
recording their outcomes. -/
theorem promiseAll_semantics (ops : List Op) :
    (ops.all Op.ok = true →
      promiseAll ops = (maxDur ops, .ok (ops.map Op.name))) ∧
    ((∃ op ∈ ops, op.ok = false) →
      ∃ bad ∈ ops, bad.ok = false ∧
        promiseAll ops = (bad.duration, .error bad.name) ∧
        ∀ op ∈ ops, op.ok = false → bad.duration ≤ op.duration) := by
  constructor
  · intro h
    rw [promiseAll, firstRejection_eq_none h]
  · intro h
    obtain ⟨bad, hfr, hmem, hok, hmin⟩ := firstRejection_of_failure h
    exact ⟨bad, hmem, hok, by rw [promiseAll, hfr], hmin⟩

/-- C2 witness: an all-success pair settles at the max with both results;
a pair with a 10 ms failure settles at 10 ms with only that error. -/
theorem promiseAll_semantics_witness :
    promiseAll [⟨"a", 50, true⟩, ⟨"b", 80, true⟩] =
      (maxDur [⟨"a", 50, true⟩, ⟨"b", 80, true⟩],
       .ok ([⟨"a", 50, true⟩, ⟨"b", 80, true⟩].map Op.name)) ∧
    ∃ bad ∈ [(⟨"c", 20, true⟩ : Op), ⟨"d", 10, false⟩], bad.ok = false ∧
      promiseAll [⟨"c", 20, true⟩, ⟨"d", 10, false⟩] =
        (bad.duration, .error bad.name) ∧
      ∀ op ∈ [(⟨"c", 20, true⟩ : Op), ⟨"d", 10, false⟩], op.ok = false →
        bad.duration ≤ op.duration := by
  refine ⟨(promiseAll_semantics _).1 (by decide), ?_⟩
  exact (promiseAll_semantics [⟨"c", 20, true⟩, ⟨"d", 10, false⟩]).2
    ⟨⟨"d", 10, false⟩, by decide, by decide⟩

/-- C4: in SEQUENTIAL mode with every operation succeeding, the total
duration equals the sum of the individual durations exactly (the
deterministic model has no scheduling jitter), and each operation's start
offset equals — in particular is no less than — the previous operation's
start offset plus its duration, so operation N+1 never starts before
operation N settles. -/
theorem seqExec_ordering (ops : List Op) (h : ops.all Op.ok = true) :
    (seqExec 0 ops).clock = sumDur ops ∧
    (∀ i, i + 1 < (seqExec 0 ops).records.length →
      ((seqExec 0 ops).records.getD i ⟨"", 0, 0, true⟩).startOffset +
          ((seqExec 0 ops).records.getD i ⟨"", 0, 0, true⟩).duration ≤
        ((seqExec 0 ops).records.getD (i + 1) ⟨"", 0, 0, true⟩).startOffset) ∧
    (∀ i, i + 1 < (seqExec 0 ops).records.length →
      ((seqExec 0 ops).records.getD (i + 1) ⟨"", 0, 0, true⟩).startOffset =
        ((seqExec 0 ops).records.getD i ⟨"", 0, 0, true⟩).startOffset +
          ((seqExec 0 ops).records.getD i ⟨"", 0, 0, true⟩).duration) := by
  rw [seqExec_all_ok 0 ops h]
  exact ⟨Nat.zero_add _,
    fun i hi => le_of_eq (mkRecords_start_step 0 ops i hi).symm,
    fun i hi => mkRecords_start_step 0 ops i hi⟩

/-- C4 witness: the five simulated booking operations, jitter-free, run
sequentially in 50+80+60+40+70 = 300 ms, and the second operation starts
exactly when the first settles. -/
theorem seqExec_ordering_witness :
    (seqExec 0 (bookingOps fun _ => 0)).clock = sumDur (bookingOps fun _ => 0) ∧
    ((seqExec 0 (bookingOps fun _ => 0)).records.getD 1 ⟨"", 0, 0, true⟩).startOffset =
      ((seqExec 0 (bookingOps fun _ => 0)).records.getD 0 ⟨"", 0, 0, true⟩).startOffset +
        ((seqExec 0 (bookingOps fun _ => 0)).records.getD 0 ⟨"", 0, 0, true⟩).duration := by
  have h := seqExec_ordering (bookingOps fun _ => 0) (by decide)
  exact ⟨h.1, h.2.2 0 (by decide)⟩

/-- C5: in CONCURRENT mode with no concurrency limit and all operations
succeeding, the run settles exactly at the maximum duration (the
deterministic model has no overhead), which is strictly less than the sum
of the durations whenever there is more than one operation and every
duration is positive. -/
theorem promiseAll_overlap (ops : List Op) (hok : ops.all Op.ok = true)
    (hlen : 1 < ops.length) (hpos : ∀ op ∈ ops, 0 < op.duration) :
    (promiseAll ops).1 = maxDur ops ∧
    (promiseAll ops).1 < sumDur ops := by
  have h1 : (promiseAll ops).1 = maxDur ops := by
    rw [promiseAll, firstRejection_eq_none hok]
  exact ⟨h1, h1 ▸ maxDur_lt_sumDur hlen hpos⟩

/-- C5 witness: the five jitter-free booking operations in parallel settle
at `maxDur` (80 ms), strictly below the 300 ms sequential sum. -/
theorem promiseAll_overlap_witness :
    (promiseAll (bookingOps fun _ => 0)).1 = maxDur (bookingOps fun _ => 0) ∧
    (promiseAll (bookingOps fun _ => 0)).1 < sumDur (bookingOps fun _ => 0) :=
  promiseAll_overlap _ (by decide) (by decide) (by decide)

/-- C6 counterexample: when the middle operation fails, `book-sequential`
answers the same fixed 500 message whatever the durations of the
operations that did run were — a run whose first operation took 50 ms and
one whose first operation took 999 ms produce identical responses — so
the response records neither the triggering operation nor the durations
of the completed operations. -/
theorem bookSequential_failure_report_counterexample :
    bookSequential
        [⟨"walletCheck", 50, true⟩, ⟨"tripHistory", 80, false⟩,
         ⟨"surgePricing", 60, true⟩] =
      .failure "Failed to book ride (sequential)" ∧
    bookSequential
        [⟨"walletCheck", 999, true⟩, ⟨"tripHistory", 80, false⟩,
         ⟨"surgePricing", 60, true⟩] =
      bookSequential
        [⟨"walletCheck", 50, true⟩, ⟨"tripHistory", 80, false⟩,
         ⟨"surgePricing", 60, true⟩] := by
  decide

/-- C6 (amended): in SEQUENTIAL mode a failing operation aborts the run:
the operations after it in submission order are never invoked (the run's
records are exactly the successful prefix followed by the failing
operation), the run's outcome is failure — but the handler's response is
the fixed 500 message, which reports neither the triggering operation nor
the durations of the operations that ran. -/
theorem bookSequential_abort_on_failure (pre : List Op) (bad : Op)
    (post : List Op) (hpre : pre.all Op.ok = true) (hbad : bad.ok = false) :
    (seqExec 0 (pre ++ bad :: post)).records.map PerOp.name =
      pre.map Op.name ++ [bad.name] ∧
    (seqExec 0 (pre ++ bad :: post)).allOk = false ∧
    bookSequential (pre ++ bad :: post) =
      .failure "Failed to book ride (sequential)" := by
  have h := seqExec_prefix_failure 0 pre bad post hpre hbad
  refine ⟨?_, ?_, ?_⟩
  · rw [h]
    simp [mkRecords_map_name]
  · rw [h]
  · rw [bookSequential]
    rw [h]
    simp

/-- C6 witness: a concrete run whose second operation fails keeps only the
first two records and answers the fixed 500 message. -/
theorem bookSequential_abort_on_failure_witness :
    (seqExec 0 ([⟨"walletCheck", 50, true⟩] ++ ⟨"tripHistory", 80, false⟩ ::
        [⟨"surgePricing", 60, true⟩])).records.map PerOp.name =
      [⟨"walletCheck", 50, true⟩].map Op.name ++ [Op.name ⟨"tripHistory", 80, false⟩] ∧
    (seqExec 0 ([⟨"walletCheck", 50, true⟩] ++ ⟨"tripHistory", 80, false⟩ ::
        [⟨"surgePricing", 60, true⟩])).allOk = false ∧
    bookSequential ([⟨"walletCheck", 50, true⟩] ++ ⟨"tripHistory", 80, false⟩ ::
        [⟨"surgePricing", 60, true⟩]) =
      .failure "Failed to book ride (sequential)" :=
  bookSequential_abort_on_failure [⟨"walletCheck", 50, true⟩]
    ⟨"tripHistory", 80, false⟩ [⟨"surgePricing", 60, true⟩] (by decide) (by decide)

/-- C8 counterexample: a sequential result of 100 requests and a parallel
result of 5 requests have different load shapes, yet `generateComparison`
produces a comparison and computes an improvement figure rather than
failing. -/
theorem generateComparison_mismatched_shape_counterexample :
    (generateComparison
        [⟨"sequential", 100, 100, 0, 30000, 300, 290, 380, 395⟩,
         ⟨"parallel", 5, 5, 0, 500, 80, 78, 95, 99⟩]).isSome = true ∧
    (generateComparison
        [⟨"sequential", 100, 100, 0, 30000, 300, 290, 380, 395⟩,
         ⟨"parallel", 5, 5, 0, 500, 80, 78, 95, 99⟩]).map
        ComparisonReport.improvementPercentage =
      some (measuredImprovementPercent 300 80) ∧
    (100 : ℕ) ≠ 5 :=
  ⟨rfl, rfl, by decide⟩

/-- C8 (amended): `generateComparison` performs no shape check: it returns
null exactly when the history lacks a sequential or a parallel result, and
otherwise compares the latest result of each endpoint label — whatever
their `totalRequests` or other load-shape fields — computing the
improvement from their average times. -/
theorem generateComparison_no_shape_check (hist : List BenchResult) :
    (generateComparison hist = none ↔
      hist.filter (fun r => r.endpoint == "sequential") = [] ∨
      hist.filter (fun r => r.endpoint == "parallel") = []) ∧
    (∀ s p,
      (hist.filter (fun r => r.endpoint == "sequential")).getLast? = some s →
      (hist.filter (fun r => r.endpoint == "parallel")).getLast? = some p →
      generateComparison hist =
        some ⟨s.averageTime, s.p95, successRatePct s, p.averageTime, p.p95,
              successRatePct p,
              measuredImprovementPercent s.averageTime p.averageTime,
              measuredImprovementPercent s.averageTime p.averageTime / 100 *
                s.averageTime⟩) := by
  constructor
  · simp only [generateComparison]
    cases hs : (hist.filter (fun r => r.endpoint == "sequential")).getLast? with
    | none =>
      simp [List.getLast?_eq_none_iff.mp hs]
    | some s =>
      cases hp : (hist.filter (fun r => r.endpoint == "parallel")).getLast? with
      | none =>
        simp [List.getLast?_eq_none_iff.mp hp]
      | some p =>
        constructor
        · intro hcontra
          simp at hcontra
        · intro hor
          rcases hor with h | h
          · rw [h] at hs
            simp at hs
          · rw [h] at hp
            simp at hp
  · intro s p hs hp
    simp only [generateComparison, hs, hp]

/-- C8 witness: with both a sequential and a parallel result present the
comparison is the latest of each side. -/
theorem generateComparison_no_shape_check_witness :
    generateComparison
        [⟨"sequential", 100, 100, 0, 30000, 300, 290, 380, 395⟩,
         ⟨"parallel", 5, 5, 0, 500, 80, 78, 95, 99⟩] =
      some ⟨300, 380, successRatePct ⟨"sequential", 100, 100, 0, 30000, 300, 290, 380, 395⟩,
            80, 95, successRatePct ⟨"parallel", 5, 5, 0, 500, 80, 78, 95, 99⟩,
            measuredImprovementPercent 300 80,
            measuredImprovementPercent 300 80 / 100 * 300⟩ :=
  (generateComparison_no_shape_check
      [⟨"sequential", 100, 100, 0, 30000, 300, 290, 380, 395⟩,
       ⟨"parallel", 5, 5, 0, 500, 80, 78, 95, 99⟩]).2
    ⟨"sequential", 100, 100, 0, 30000, 300, 290, 380, 395⟩
    ⟨"parallel", 5, 5, 0, 500, 80, 78, 95, 99⟩ rfl rfl

theorem validate_none_sound (b : RideRequestBody)
    (hv : validateRideRequestEnhanced b = none) :
    ∃ pu dr rt, b.pickup = some pu ∧ b.dropoff = some dr ∧
      b.ride_type = some rt ∧
      numFalsy pu.lat = false ∧ numFalsy pu.lng = false ∧
      numFalsy dr.lat = false ∧ numFalsy dr.lng = false ∧
      rt ∈ ["standard", "premium", "shared"] := by
  cases hp : b.pickup with
  | none => simp only [validateRideRequestEnhanced, hp] at hv; cases hv
  | some pu =>
    cases hd : b.dropoff with
    | none => simp only [validateRideRequestEnhanced, hp, hd] at hv; cases hv
    | some dr =>
      simp only [validateRideRequestEnhanced, hp, hd] at hv
      by_cases hc :
          (numFalsy pu.lat || numFalsy pu.lng || numFalsy dr.lat || numFalsy dr.lng) = true
      · rw [if_pos hc] at hv; cases hv
      · rw [if_neg hc] at hv
        rw [Bool.or_eq_true, Bool.or_eq_true, Bool.or_eq_true] at hc
        push_neg at hc
        cases hrt : b.ride_type with
        | none => rw [hrt] at hv; simp at hv
        | some rt =>
          rw [hrt] at hv
          by_cases hin : rt ∈ ["standard", "premium", "shared"]
          · exact ⟨pu, dr, rt, rfl, rfl, rfl,
              Bool.eq_false_iff.mpr hc.1.1.1, Bool.eq_false_iff.mpr hc.1.1.2,
              Bool.eq_false_iff.mpr hc.1.2, Bool.eq_false_iff.mpr hc.2, hin⟩
          · simp [hin] at hv

/-- C9: a request whose pickup or dropoff is absent, whose coordinates are
absent or zero (JavaScript falsiness rejects the legitimate coordinate 0),
or whose ride type is not one of standard/premium/shared, is answered with
status 400 by the validation middleware, and the route handler — hence any
database operation — never runs: the store is unchanged. -/
theorem routeWithValidation_rejects {σ : Type}
    (handler : RideRequestBody → σ → HttpResponse × σ)
    (b : RideRequestBody) (st : σ)
    (h : b.pickup = none ∨ b.dropoff = none ∨
      (∃ pu, b.pickup = some pu ∧
        (pu.lat = none ∨ pu.lat = some 0 ∨ pu.lng = none ∨ pu.lng = some 0)) ∨
      (∃ dr, b.dropoff = some dr ∧
        (dr.lat = none ∨ dr.lat = some 0 ∨ dr.lng = none ∨ dr.lng = some 0)) ∨
      b.ride_type = none ∨
      (∃ rt, b.ride_type = some rt ∧ rt ∉ ["standard", "premium", "shared"])) :
    (routeWithValidation handler b st).1.status = 400 ∧
    (routeWithValidation handler b st).2 = st := by
  cases hv : validateRideRequestEnhanced b with
  | some msg =>
    rw [routeWithValidation, hv]
    exact ⟨rfl, rfl⟩
  | none =>
    exfalso
    obtain ⟨pu, dr, rt, hpu, hdr, hrt, f1, f2, f3, f4, hin⟩ :=
      validate_none_sound b hv
    rcases h with h | h | ⟨pu', hpu', hf⟩ | ⟨dr', hdr', hf⟩ | h | ⟨rt', hrt', hnot⟩
    · rw [h] at hpu; cases hpu
    · rw [h] at hdr; cases hdr
    · rw [hpu] at hpu'
      injection hpu' with e
      subst e
      rcases hf with hf | hf | hf | hf
      · rw [hf] at f1; simp [numFalsy] at f1
      · rw [hf] at f1; simp [numFalsy] at f1
      · rw [hf] at f2; simp [numFalsy] at f2
      · rw [hf] at f2; simp [numFalsy] at f2
    · rw [hdr] at hdr'
      injection hdr' with e
      subst e
      rcases hf with hf | hf | hf | hf
      · rw [hf] at f3; simp [numFalsy] at f3
      · rw [hf] at f3; simp [numFalsy] at f3
      · rw [hf] at f4; simp [numFalsy] at f4
      · rw [hf] at f4; simp [numFalsy] at f4
    · rw [h] at hrt; cases hrt
    · rw [hrt] at hrt'
      injection hrt' with e
      subst e
      exact hnot hin

/-- C9 witness: a request whose pickup latitude is the legitimate
coordinate 0 is rejected with 400 and the store (here a counter at 7) is
untouched. -/
theorem routeWithValidation_rejects_witness :
    (routeWithValidation (fun _ st => (⟨200, "booked"⟩, st))
        ⟨some ⟨some 0, some 77⟩, some ⟨some 21, some 82⟩, some "standard"⟩
        (7 : ℕ)).1.status = 400 ∧
    (routeWithValidation (fun _ st => (⟨200, "booked"⟩, st))
        ⟨some ⟨some 0, some 77⟩, some ⟨some 21, some 82⟩, some "standard"⟩
        (7 : ℕ)).2 = 7 :=
  routeWithValidation_rejects _ _ _
    (Or.inr (Or.inr (Or.inl ⟨⟨some 0, some 77⟩, rfl, Or.inr (Or.inl rfl)⟩)))

theorem surgeMultiplier_cases (hour day : ℕ) :
    surgeMultiplier hour day = 1 ∨ surgeMultiplier hour day = 6 / 5 ∨
    surgeMultiplier hour day = 13 / 10 ∨ surgeMultiplier hour day = 3 / 2 := by
  rw [surgeMultiplier]
  by_cases h1 : (7 ≤ hour ∧ hour ≤ 10) ∨ (17 ≤ hour ∧ hour ≤ 21) <;>
    by_cases h2 : 23 ≤ hour ∨ hour ≤ 5 <;>
      by_cases h3 : day = 0 ∨ day = 6 <;>
        simp only [h1, h2, h3, if_true, if_false] <;>
          norm_num [max_def]

/-- C10: every estimate has duration `max(ceil(distance / 25 × 60), 5)`,
hence at least 5 minutes; a surge multiplier in {1, 1.2, 1.3, 1.5}; a
total fare equal to (base fare + distance × per-km rate) × surge rounded
to 2 decimals; and an unknown ride type falls back to the standard
rates. -/
theorem estimateFare_props (distance : ℚ) (rt : String) (hour day : ℕ) :
    5 ≤ (estimateFare distance rt hour day).duration ∧
    (estimateFare distance rt hour day).duration = max ⌈distance / 25 * 60⌉ 5 ∧
    ((estimateFare distance rt hour day).surge_multiplier = 1 ∨
     (estimateFare distance rt hour day).surge_multiplier = 6 / 5 ∨
     (estimateFare distance rt hour day).surge_multiplier = 13 / 10 ∨
     (estimateFare distance rt hour day).surge_multiplier = 3 / 2) ∧
    (estimateFare distance rt hour day).total_fare =
      round2 ((lookupOr baseFares rt 25 + distance * lookupOr perKmRates rt 12) *
        surgeMultiplier hour day) ∧
    (rt ∉ ["standard", "premium", "shared"] →
      lookupOr baseFares rt 25 = lookupOr baseFares "standard" 25 ∧
      lookupOr perKmRates rt 12 = lookupOr perKmRates "standard" 12) := by
  refine ⟨le_max_right _ _, rfl, ?_, rfl, ?_⟩
  · exact surgeMultiplier_cases hour day
  · intro hnot
    simp only [List.mem_cons, List.not_mem_nil, or_false, not_or] at hnot
    obtain ⟨h1, h2, h3⟩ := hnot
    have e1 : ("standard" == rt) = false :=
      beq_eq_false_iff_ne.mpr (fun h => h1 h.symm)
    have e2 : ("premium" == rt) = false :=
      beq_eq_false_iff_ne.mpr (fun h => h2 h.symm)
    have e3 : ("shared" == rt) = false :=
      beq_eq_false_iff_ne.mpr (fun h => h3 h.symm)
    constructor <;>
      simp [lookupOr, baseFares, perKmRates, List.find?, e1, e2, e3]

/-- C10 witness: a 10 km ride of unknown type "luxury" at 08:00 on a
Wednesday gets the standard fallback rates, the minimum-bounded duration,
a listed surge value, and the documented total fare. -/
theorem estimateFare_props_witness :
    5 ≤ (estimateFare 10 "luxury" 8 3).duration ∧
    (estimateFare 10 "luxury" 8 3).duration = max ⌈(10 : ℚ) / 25 * 60⌉ 5 ∧
    ((estimateFare 10 "luxury" 8 3).surge_multiplier = 1 ∨
     (estimateFare 10 "luxury" 8 3).surge_multiplier = 6 / 5 ∨
     (estimateFare 10 "luxury" 8 3).surge_multiplier = 13 / 10 ∨
     (estimateFare 10 "luxury" 8 3).surge_multiplier = 3 / 2) ∧
    (estimateFare 10 "luxury" 8 3).total_fare =
      round2 ((lookupOr baseFares "luxury" 25 + 10 * lookupOr perKmRates "luxury" 12) *
        surgeMultiplier 8 3) ∧
    (lookupOr baseFares "luxury" 25 = lookupOr baseFares "standard" 25 ∧
     lookupOr perKmRates "luxury" 12 = lookupOr perKmRates "standard" 12) := by
  have h := estimateFare_props 10 "luxury" 8 3
  exact ⟨h.1, h.2.1, h.2.2.1, h.2.2.2.1, h.2.2.2.2 (by decide)⟩

end RideBoost
